import Mathlib

/-!
Verification development for the Qmetrics trading-performance analytics engine.

The Python source is shallowly embedded below:
* floating-point values are modelled by `PyFloat`, rationals extended with
  `nan` and the two infinities, with IEEE-754-style propagation rules
  (exact arithmetic; binary rounding is not modelled — every claim checked
  here is about exact small-integer data where rounding never fires);
* pandas Series/DataFrame operations are modelled as explicit list
  transforms (`sumSkipNa`, `meanSkipNa`, groupby, resample-ffill, ...),
  matching pandas defaults (`skipna=True`, `ddof=1`, stable order);
* numpy's global random state is modelled by an explicit state type
  threaded through the simulation, with the documented contracts of
  `np.random.choice` / `np.random.permutation` as structure fields;
* Python exceptions are modelled with `Except`: a function that can raise
  returns `Except PyErr _`, and catching is an explicit `match`.
-/

namespace Qmetrics

/-! Kernel-computable rational arithmetic.  The field operations on `ℚ`
(`Rat.add`, `Rat.mul`, ...) do not reduce inside the Lean kernel in this
toolchain, which would make every concrete evaluation (`decide`/`rfl`)
fail.  The wrappers below implement the same operations through `mkRat` /
`Rat.divInt`, which do reduce, and each is proved equal to the
corresponding field operation. -/

/-- Rational addition through `mkRat` (kernel-computable). -/
def qadd (a b : ℚ) : ℚ := mkRat (a.num * b.den + b.num * a.den) (a.den * b.den)

/-- Rational subtraction through `mkRat` (kernel-computable). -/
def qsub (a b : ℚ) : ℚ := mkRat (a.num * b.den - b.num * a.den) (a.den * b.den)

/-- Rational multiplication through `mkRat` (kernel-computable). -/
def qmul (a b : ℚ) : ℚ := mkRat (a.num * b.num) (a.den * b.den)

/-- Rational division through `Rat.divInt` (kernel-computable); division
by zero gives 0, reached only behind explicit zero guards. -/
def qdiv (a b : ℚ) : ℚ := Rat.divInt (a.num * b.den) (a.den * b.num)

/-- Rational negation through `Rat.divInt` (kernel-computable). -/
def qneg (a : ℚ) : ℚ := Rat.divInt (-a.num) a.den

/-- Rational absolute value (kernel-computable). -/
def qabs (a : ℚ) : ℚ := if a < 0 then qneg a else a

/-- Model of a Python/numpy double: `nan`, `inf`, `-inf`, or an exact
rational value.  (`-0.0` is identified with `0`; rounding is not modelled.) -/
inductive PyFloat where
  | nan : PyFloat
  | inf : PyFloat
  | ninf : PyFloat
  | val (q : ℚ) : PyFloat
deriving DecidableEq, Repr

namespace PyFloat

/-- Is this value NaN? -/
def isNan : PyFloat → Bool
  | nan => true
  | _ => false

/-- Python truthiness of a float: `bool(x)` is `False` only for zero;
NaN and the infinities are truthy. -/
def truthy : PyFloat → Bool
  | val q => q ≠ 0
  | _ => true

/-- IEEE negation. -/
def neg : PyFloat → PyFloat
  | nan => nan
  | inf => ninf
  | ninf => inf
  | val q => val (qneg q)

/-- IEEE addition: NaN propagates, `inf + (-inf) = nan`. -/
def add : PyFloat → PyFloat → PyFloat
  | nan, _ => nan
  | _, nan => nan
  | inf, ninf => nan
  | ninf, inf => nan
  | inf, _ => inf
  | _, inf => inf
  | ninf, _ => ninf
  | _, ninf => ninf
  | val a, val b => val (qadd a b)

/-- IEEE subtraction. -/
def sub (a b : PyFloat) : PyFloat := add a (neg b)

/-- IEEE multiplication: NaN propagates, `inf * 0 = nan`. -/
def mul : PyFloat → PyFloat → PyFloat
  | nan, _ => nan
  | _, nan => nan
  | inf, inf => inf
  | inf, ninf => ninf
  | ninf, inf => ninf
  | ninf, ninf => inf
  | inf, val b => if b = 0 then nan else if 0 < b then inf else ninf
  | val a, inf => if a = 0 then nan else if 0 < a then inf else ninf
  | ninf, val b => if b = 0 then nan else if 0 < b then ninf else inf
  | val a, ninf => if a = 0 then nan else if 0 < a then ninf else inf
  | val a, val b => val (qmul a b)

/-- IEEE division (numpy semantics: a finite value divided by zero gives a
signed infinity with a warning rather than a Python `ZeroDivisionError`;
`0/0 = nan`). -/
def div : PyFloat → PyFloat → PyFloat
  | nan, _ => nan
  | _, nan => nan
  | inf, inf => nan
  | inf, ninf => nan
  | ninf, inf => nan
  | ninf, ninf => nan
  | inf, val b => if b < 0 then ninf else inf
  | ninf, val b => if b < 0 then inf else ninf
  | val _, inf => val 0
  | val _, ninf => val 0
  | val a, val b =>
    if b = 0 then (if a = 0 then nan else if 0 < a then inf else ninf)
    else val (qdiv a b)

/-- IEEE absolute value. -/
def pyAbs : PyFloat → PyFloat
  | nan => nan
  | inf => inf
  | ninf => inf
  | val q => val (qabs q)

/-- IEEE `<`: any comparison against NaN is false. -/
def lt : PyFloat → PyFloat → Bool
  | nan, _ => false
  | _, nan => false
  | ninf, ninf => false
  | ninf, _ => true
  | _, ninf => false
  | inf, _ => false
  | val _, inf => true
  | val a, val b => a < b

/-- IEEE `!=`: NaN is unequal to everything, including itself. -/
def pyNe : PyFloat → PyFloat → Bool
  | nan, _ => true
  | _, nan => true
  | a, b => a ≠ b

/-- `np.maximum`: propagates NaN from either argument. -/
def pyMax : PyFloat → PyFloat → PyFloat
  | nan, _ => nan
  | _, nan => nan
  | a, b => if lt a b then b else a

/-- Python `x or y`: returns `x` when `x` is truthy, else `y`.
Note that `nan or 0` is `nan`, since NaN is truthy. -/
def pyOr (a b : PyFloat) : PyFloat := if truthy a then a else b

end PyFloat

open PyFloat

/-- Values of a list that are not NaN (what pandas' `skipna=True` keeps). -/
def nonNan (l : List PyFloat) : List PyFloat := l.filter (fun x => ¬ x.isNan)

/-- pandas `Series.sum()`: skips NaN, empty sum is 0. -/
def sumSkipNa (l : List PyFloat) : PyFloat :=
  (nonNan l).foldl PyFloat.add (val 0)

/-- pandas `Series.mean()`: skips NaN; NaN on an empty (or all-NaN) series. -/
def meanSkipNa (l : List PyFloat) : PyFloat :=
  let n := (nonNan l).length
  if n = 0 then nan else PyFloat.div (sumSkipNa l) (val n)

/-- pandas `Series.std()` (`ddof=1`), with the square root supplied by the
caller (floating-point `sqrt` is not algebraic over ℚ, so the numeric
primitive is a parameter of the embedding).  A series with fewer than two
non-NaN entries yields NaN (`0/0`). -/
def stdSkipNa (sqrtF : PyFloat → PyFloat) (l : List PyFloat) : PyFloat :=
  let xs := nonNan l
  let μ := meanSkipNa l
  let ss := sumSkipNa (xs.map (fun x => PyFloat.mul (PyFloat.sub x μ) (PyFloat.sub x μ)))
  sqrtF (PyFloat.div ss (val (qsub (xs.length : ℚ) 1)))

/-- Insert into a list sorted ascending by IEEE `<=` on non-NaN values
(helper for `sortedAsc`). -/
def insertAsc (x : PyFloat) : List PyFloat → List PyFloat
  | [] => [x]
  | y :: ys => if PyFloat.lt y x then y :: insertAsc x ys else x :: y :: ys

/-- Ascending stable sort of non-NaN floats (helper modelling pandas/numpy
ascending sorts on NaN-free data). -/
def sortedAsc (l : List PyFloat) : List PyFloat := l.foldr insertAsc []

/-- pandas `Series.nsmallest(k)`: drop NaN, sort ascending, take `k`. -/
def nsmallest (k : ℕ) (l : List PyFloat) : List PyFloat :=
  (sortedAsc (nonNan l)).take k

/-- pandas `Series.pct_change()`: first entry NaN, then `x_i / x_{i-1} - 1`. -/
def pctChange (l : List PyFloat) : List PyFloat :=
  match l with
  | [] => []
  | x :: xs => nan :: pctChangeGo x xs
where
  /-- Tail of `pctChange`: ratios against the previous element. -/
  pctChangeGo (p : PyFloat) : List PyFloat → List PyFloat
  | [] => []
  | y :: ys => PyFloat.sub (PyFloat.div y p) (val 1) :: pctChangeGo y ys

/-- pandas `Series.cummax()` (`skipna=True`): NaN entries stay NaN but do
not poison the running maximum. -/
def cummaxSkipNa (l : List PyFloat) : List PyFloat := go none l
where
  /-- Worker for `cummaxSkipNa`; the accumulator is the best non-NaN so far. -/
  go (best : Option PyFloat) : List PyFloat → List PyFloat
  | [] => []
  | x :: xs =>
    if x.isNan then nan :: go best xs
    else
      match best with
      | none => x :: go (some x) xs
      | some m =>
        let b := if PyFloat.lt m x then x else m
        b :: go (some b) xs

/-- pandas `Series.max()` (`skipna=True`): NaN on empty / all-NaN series. -/
def seriesMax (l : List PyFloat) : PyFloat :=
  match nonNan l with
  | [] => nan
  | x :: xs => xs.foldl (fun a b => if PyFloat.lt a b then b else a) x

/-- `np.maximum.accumulate` along a row: running maximum with numpy's
NaN-propagating `maximum`. -/
def npMaxAccumulate : List PyFloat → List PyFloat
  | [] => []
  | x :: xs => x :: go x xs
where
  /-- Worker for `npMaxAccumulate`. -/
  go (c : PyFloat) : List PyFloat → List PyFloat
  | [] => []
  | y :: ys =>
    let c' := PyFloat.pyMax c y
    c' :: go c' ys

/-- `np.ndarray.max()` over one row: numpy raises `ValueError` on a
zero-size reduction, modelled by `none`. -/
def npAmax : List PyFloat → Option PyFloat
  | [] => none
  | x :: xs => some (xs.foldl PyFloat.pyMax x)

/-- Minimum of a list of dates (pandas `Series.min()` on a datetime column;
`none` models `NaT` on an empty series). -/
def dateMin : List ℤ → Option ℤ
  | [] => none
  | x :: xs => some (xs.foldl min x)

/-- Maximum of a list of dates (`none` models `NaT`). -/
def dateMax : List ℤ → Option ℤ
  | [] => none
  | x :: xs => some (xs.foldl max x)

/-- One row of the canonical trade ledger (`data_processing.format_trade_data`
output schema).  Dates are modelled as integer day indices; only the columns
the verified functions read are carried. -/
structure Trade where
  typ : String
  entryDate : ℤ
  exitDate : ℤ
  entryPrice : PyFloat
  profit : PyFloat
  netProfit : PyFloat
deriving DecidableEq, Repr

/-- Python exceptions raised by the embedded functions, named after the
spec's error taxonomy (§7) where it gives a name to the raise site:
* `indexError` — `IndexError`, e.g. `.iloc[0]` on an empty frame;
* `invalidParameterError` — the `ValueError`s of `monte_carlo_simulation`
  (unknown method, or `num_trades` exceeding the pool under shuffling);
* `invalidShapeError` — the `ValueError`s raised for a wrong array
  dimensionality in the derived-statistic functions;
* `zeroSizeReduceError` — numpy's `ValueError` for a reduction over a
  zero-size axis (`.max(axis=1)` of a zero-column matrix). -/
inductive PyErr where
  | indexError : PyErr
  | invalidParameterError : PyErr
  | invalidShapeError : PyErr
  | zeroSizeReduceError : PyErr
deriving DecidableEq, Repr

/-! ### monte_carlo.py -/

/-- Model of numpy's global pseudo-random generator over an abstract state
type `S`: `np.random.seed` resets the state, `np.random.choice` /
`np.random.permutation` consume and advance it.  The three propositional
fields are the documented numpy contracts the code relies on:
`choice(pool, n)` returns `n` values drawn from a non-empty pool, and
`permutation(pool)` returns a permutation of the pool. -/
structure NumpyRandom (S : Type) where
  seedFn : ℕ → S
  choice : S → List PyFloat → ℕ → S × List PyFloat
  permutation : S → List PyFloat → S × List PyFloat
  choice_length : ∀ s pool n, ((choice s pool n).2).length = n
  choice_mem : ∀ s pool n x, pool ≠ [] → x ∈ (choice s pool n).2 → x ∈ pool
  permutation_perm : ∀ s pool, ((permutation s pool).2).Perm pool

/-- Split the flat sample vector of `np.random.choice(size=(nsim, nt))`
into its `nsim` rows of length `nt` (numpy fills row-major). -/
def chunkRows (nt : ℕ) (flat : List PyFloat) (nsim : ℕ) : List (List PyFloat) :=
  (List.range nsim).map (fun i => ((flat.drop (i * nt)).take nt))

/-- The per-simulation shuffling loop of `monte_carlo_simulation` (method
`"randomized_shuffling"`): each iteration calls `np.random.permutation` on
the historical pool — advancing the global state — and keeps the first
`nt` entries as that simulation's row. -/
def shuffleRows {S : Type} (rng : NumpyRandom S) (s : S) (profits : List PyFloat) :
    ℕ → ℕ → List (List PyFloat)
  | 0, _ => []
  | n + 1, nt =>
    let sp := rng.permutation s profits
    sp.2.take nt :: shuffleRows rng sp.1 profits n nt

/-- `monte_carlo.monte_carlo_simulation` (lines 6–48).  The ledger is the
canonical one, so the `Profit` column is present by construction and the
`KeyError` branch of lines 14–15 is unreachable in this model.  `gs` is the
value of numpy's global random state on entry; a non-`None` seed replaces
it via `np.random.seed` before the batch. -/
def monte_carlo_simulation {S : Type} (rng : NumpyRandom S) (gs : S)
    (trades : List Trade) (num_simulations : ℕ) (num_trades : Option ℕ)
    (method : String) (seed : Option ℕ) : Except PyErr (List (List PyFloat)) :=
  let profits := trades.map (·.profit)
  let total_trades_available := profits.length
  let nt := num_trades.getD total_trades_available
  if method ≠ "random_choice" ∧ method ≠ "randomized_shuffling" then
    .error .invalidParameterError
  else if method = "randomized_shuffling" ∧ nt > total_trades_available then
    .error .invalidParameterError
  else
    let s0 := match seed with
      | some k => rng.seedFn k
      | none => gs
    if method = "random_choice" then
      .ok (chunkRows nt (rng.choice s0 profits (num_simulations * nt)).2 num_simulations)
    else
      .ok (shuffleRows rng s0 profits num_simulations nt)

/-- numpy array argument of the derived-statistic functions, as seen by
their `ndim` checks: a 1-D row, a 2-D row matrix, or an array of any other
dimensionality (whose data the functions never reach). -/
inductive NDArray where
  | d1 (row : List PyFloat) : NDArray
  | d2 (rows : List (List PyFloat)) : NDArray
  | other (n : ℕ) : NDArray
deriving DecidableEq, Repr

/-- The `ndim` of an `NDArray`. -/
def NDArray.ndim : NDArray → ℕ
  | d1 _ => 1
  | d2 _ => 2
  | other n => n

/-- Well-formedness of the model: the catch-all constructor is only used
for dimensionalities other than 1 and 2 (a real 1-D or 2-D numpy array is
represented by `d1`/`d2`). -/
def NDArray.wf : NDArray → Prop
  | other n => n ≠ 1 ∧ n ≠ 2
  | _ => True

/-- `monte_carlo.calculate_max_drawdown` (lines 51–71): reshape a 1-D input
to one row, reject other dimensionalities, then per row take the running
maximum, subtract, optionally normalize by the (zero-guarded) running peak,
and reduce each row with `max`. -/
def calculate_max_drawdown (a : NDArray) (as_percentage : Bool) :
    Except PyErr (List PyFloat) :=
  let rowsOpt : Option (List (List PyFloat)) :=
    match a with
    | .d1 row => some [row]
    | .d2 rows => some rows
    | .other _ => none
  match rowsOpt with
  | none => .error .invalidShapeError
  | some m =>
    let roll_max := m.map npMaxAccumulate
    let drawdowns := List.zipWith (List.zipWith PyFloat.sub) roll_max m
    let drawdowns :=
      if as_percentage then
        let safe_roll_max :=
          roll_max.map (List.map (fun x => if x = val 0 then val 1 else x))
        List.zipWith
          (List.zipWith (fun d s => PyFloat.mul (PyFloat.div d s) (val 100)))
          drawdowns safe_roll_max
      else drawdowns
    match drawdowns.mapM npAmax with
    | none => .error .zeroSizeReduceError
    | some v => .ok v

/-- Loop body of `metrics_calculation.max_consecutive_losses` (lines 12–18):
state is `(max_loss_streak, current_loss_streak)`. -/
def lossStep (st : ℕ × ℕ) (profit : PyFloat) : ℕ × ℕ :=
  if PyFloat.lt profit (val 0) then
    let c := st.2 + 1
    (if c > st.1 then c else st.1, c)
  else (st.1, 0)

/-- `metrics_calculation.max_consecutive_losses` (lines 9–19). -/
def max_consecutive_losses (profits : List PyFloat) : ℕ :=
  (profits.foldl lossStep (0, 0)).1

/-- Loop body of `metrics_calculation.max_consecutive_wins` (lines 24–30). -/
def winStep (st : ℕ × ℕ) (profit : PyFloat) : ℕ × ℕ :=
  if PyFloat.lt (val 0) profit then
    let c := st.2 + 1
    (if c > st.1 then c else st.1, c)
  else (st.1, 0)

/-- `metrics_calculation.max_consecutive_wins` (lines 21–31). -/
def max_consecutive_wins (profits : List PyFloat) : ℕ :=
  (profits.foldl winStep (0, 0)).1

/-- One column step of the vectorized streak loop
(`monte_carlo.calculate_max_consecutive_losing_trades` lines 83–87, and the
identical winning variant lines 100–104, which differ only in the sign
predicate `p`): extract column `j` as a boolean mask, update the running
streaks with `np.where`, update the maxima with `np.maximum`. -/
def vStreakCol (p : PyFloat → Bool) (m : List (List PyFloat))
    (st : List ℕ × List ℕ) (j : ℕ) : List ℕ × List ℕ :=
  let colFlag := m.map (fun r => p (r.getD j nan))
  let cur := List.zipWith (fun b c => if b then c + 1 else 0) colFlag st.2
  let mx := List.zipWith Nat.max st.1 cur
  (mx, cur)

/-- The full vectorized streak computation over a 2-D matrix: fold the
column step over all column indices, starting from zero vectors, and return
the vector of per-row maxima. -/
def vStreaks (p : PyFloat → Bool) (m : List (List PyFloat)) : List ℕ :=
  let n := m.length
  let ncols := (m.headD []).length
  ((List.range ncols).foldl (vStreakCol p m)
    (List.replicate n 0, List.replicate n 0)).1

/-- `monte_carlo.calculate_max_consecutive_losing_trades` (lines 74–89). -/
def calculate_max_consecutive_losing_trades (a : NDArray) :
    Except PyErr (List ℕ) :=
  match a with
  | .d2 m => .ok (vStreaks (fun x => PyFloat.lt x (val 0)) m)
  | _ => .error .invalidShapeError

/-- `monte_carlo.calculate_max_consecutive_winning_trades` (lines 91–106). -/
def calculate_max_consecutive_winning_trades (a : NDArray) :
    Except PyErr (List ℕ) :=
  match a with
  | .d2 m => .ok (vStreaks (fun x => PyFloat.lt (val 0) x) m)
  | _ => .error .invalidShapeError

/-! ### metrics_calculation.py -/

/-- Insertion step of the date sort (`sort_values(by=date_column)`). -/
def insertByDate (dc : Trade → ℤ) (x : Trade) : List Trade → List Trade
  | [] => [x]
  | y :: ys => if dc x ≤ dc y then x :: y :: ys else y :: insertByDate dc x ys

/-- `trades.sort_values(by=date_column)`: ascending stable sort by the
selected date column (`dc` is the column selector). -/
def sortByDate (dc : Trade → ℤ) (trades : List Trade) : List Trade :=
  trades.foldr (insertByDate dc) []

/-- Insertion step for sorting integer keys ascending. -/
def insInt (x : ℤ) : List ℤ → List ℤ
  | [] => [x]
  | y :: ys => if x ≤ y then x :: y :: ys else y :: insInt x ys

/-- Ascending sort of integer keys (groupby sorts its keys). -/
def sortInts (l : List ℤ) : List ℤ := l.foldr insInt []

/-- Collapse adjacent duplicates of a sorted key list. -/
def dedupAdj : List ℤ → List ℤ
  | [] => []
  | [x] => [x]
  | x :: y :: r => if x = y then dedupAdj (y :: r) else x :: dedupAdj (y :: r)

/-- `trades.groupby(date_column)['Net Profit'].sum()`: per-date net-profit
sums, keyed by the sorted distinct dates. -/
def dailyProfit (dc : Trade → ℤ) (trades : List Trade) : List (ℤ × PyFloat) :=
  (dedupAdj (sortInts (trades.map dc))).map
    (fun d => (d, sumSkipNa ((trades.filter (fun t => dc t = d)).map (·.netProfit))))

/-- `daily_profit['Net Profit'].cumsum() + initial_balance`: running sum of
the per-date profits, shifted by the initial balance.  Each output row is
`(date, net profit that day, cumulative balance)`. -/
def cumsumPlus (ib : ℚ) : List (ℤ × PyFloat) → List (ℤ × PyFloat × PyFloat) :=
  go (val 0)
where
  /-- Worker for `cumsumPlus`; the accumulator is the running sum. -/
  go (acc : PyFloat) : List (ℤ × PyFloat) → List (ℤ × PyFloat × PyFloat)
  | [] => []
  | (d, x) :: r =>
    let a := PyFloat.add acc x
    (d, x, PyFloat.add a (val ib)) :: go a r

/-- Forward-fill lookup: the value of the last row whose date is `≤ day`
(rows sorted ascending by date).  The NaN default models a reindex hole
before the first date (unreachable when the range starts at the minimum). -/
def ffillRow (rows : List (ℤ × PyFloat × PyFloat)) (day : ℤ) :
    ℤ × PyFloat × PyFloat :=
  rows.foldl (fun acc r => if r.1 ≤ day then r else acc) (day, nan, nan)

/-- `.set_index(date).resample('D').ffill()`: expand to one row per
calendar day from the minimum to the maximum date, forward-filling both
carried columns; empty input stays empty. -/
def resampleDaily (rows : List (ℤ × PyFloat × PyFloat)) :
    List (ℤ × PyFloat × PyFloat) :=
  match dateMin (rows.map (·.1)), dateMax (rows.map (·.1)) with
  | some first, some last =>
    (List.range ((last - first).toNat + 1)).map (fun i =>
      let d := first + (i : ℤ)
      let r := ffillRow rows d
      (d, r.2.1, r.2.2))
  | _, _ => []

/-- One row of the returned equity curve: calendar day, that day's
(forward-filled) net profit, cumulative balance, and daily return. -/
structure EquityRow where
  date : ℤ
  netProfit : PyFloat
  cumulative : PyFloat
  dailyReturn : PyFloat
deriving DecidableEq, Repr

/-- Loop body of `metrics_calculation.max_drawdown_period` (lines 59–65):
state is `(max_dd_period, current_dd_period)`. -/
def ddStep (st : ℕ × ℕ) (b : Bool) : ℕ × ℕ :=
  if b then
    let c := st.2 + 1
    (if c > st.1 then c else st.1, c)
  else (st.1, 0)

/-- `metrics_calculation.max_drawdown_period` (lines 49–67): longest run of
days with the cumulative balance strictly below its running maximum. -/
def max_drawdown_period (cumulative_profit : List PyFloat) : ℕ :=
  let rolling_max := cummaxSkipNa cumulative_profit
  let in_drawdown := List.zipWith (fun c m => PyFloat.lt c m) cumulative_profit rolling_max
  (in_drawdown.foldl ddStep (0, 0)).1

/-- `metrics_calculation.calculate_buy_and_hold` (lines 69–108): sort by
the date column, drop duplicate dates (keeping the first row), read the
first row's entry price (`.iloc[0]` — an `IndexError` on an empty ledger),
build a forward-filled daily entry-price series over the ledger's date
span, and derive the buy-and-hold curve and its $ / % returns. -/
def calculate_buy_and_hold (trades : List Trade) (dc : Trade → ℤ)
    (initial_balance : ℚ) :
    Except PyErr (List (ℤ × PyFloat × PyFloat × PyFloat) × PyFloat × PyFloat) :=
  let trades_sorted := sortByDate dc trades
  let deduped := dedupByDate dc [] trades_sorted
  match deduped with
  | [] => .error .indexError
  | first_trade :: _ =>
    let buy_price := first_trade.entryPrice
    let first_date := (dateMin (deduped.map dc)).getD 0
    let last_date := (dateMax (deduped.map dc)).getD 0
    let daily_prices :=
      (List.range ((last_date - first_date).toNat + 1)).map (fun i =>
        let d := first_date + (i : ℤ)
        let price := deduped.foldl
          (fun acc t => if dc t ≤ d then t.entryPrice else acc) buy_price
        let r := PyFloat.div (PyFloat.sub price buy_price) buy_price
        let c := PyFloat.mul (PyFloat.add (val 1) r) (val initial_balance)
        (d, price, r, c))
    let final_balance := (daily_prices.map (fun p => p.2.2.2)).getLastD (val 0)
    let buy_and_hold_return_dollar := PyFloat.sub final_balance (val initial_balance)
    let buy_and_hold_return_pct :=
      PyFloat.mul (PyFloat.div buy_and_hold_return_dollar (val initial_balance)) (val 100)
    .ok (daily_prices, buy_and_hold_return_dollar, buy_and_hold_return_pct)
where
  /-- `drop_duplicates(subset=[date_column])`: keep the first row of each
  date in the current (sorted) order; `seen` collects dates already kept. -/
  dedupByDate (dc : Trade → ℤ) (seen : List ℤ) : List Trade → List Trade
  | [] => []
  | t :: r =>
    if dc t ∈ seen then dedupByDate dc seen r
    else t :: dedupByDate dc (dc t :: seen) r

/-- The numeric content of the metrics mapping built by
`calculate_metrics` (lines 196–221).  Display formatting (currency/percent
strings, `round(_, 2)`, the SQN label) is presentation and not modelled;
each field holds the raw value the format string receives.  The two
buy-and-hold fields are `none` when `include_buy_and_hold` is false (the
dict keys are absent). -/
structure Metrics where
  bahDollar : Option PyFloat
  bahPct : Option PyFloat
  numTrades : ℕ
  winRatePct : PyFloat
  riskRewardRatio : PyFloat
  totalNetProfit : PyFloat
  totalNetProfitPct : PyFloat
  maxDrawdown : PyFloat
  maxDrawdownPct : PyFloat
  maxDrawdownPeriodDays : ℕ
  expectedShortfall5 : PyFloat
  sqn : PyFloat
  sharpeRatio : PyFloat
  sortinoRatio : PyFloat
  cagrPct : PyFloat
  annualReturnDollar : PyFloat
  annualVolatility : PyFloat
  maxConsecutiveLosses : ℕ
  maxConsecutiveWins : ℕ
deriving DecidableEq, Repr

/-- `metrics_calculation.calculate_metrics` (lines 110–223), embedded
statement by statement.  `sqrtF` and `powF` are the numeric primitives
`np.sqrt` and float `**` (transcendental over ℚ, hence parameters of the
embedding; no claim checked here depends on their values).  `dc` selects
the `date_column`.  The function has no try/except: the only exception
reachable in this model — the `IndexError` of `calculate_buy_and_hold` on
an empty ledger — propagates to the caller as `.error`. -/
def calculate_metrics (sqrtF : PyFloat → PyFloat)
    (powF : PyFloat → PyFloat → PyFloat) (trades : List Trade)
    (dc : Trade → ℤ) (initial_balance : ℚ) (risk_free_rate : ℚ)
    (include_buy_and_hold : Bool) :
    Except PyErr (Metrics × List EquityRow) :=
  let trades := sortByDate dc trades
  let total_profit := sumSkipNa (trades.map (·.netProfit))
  let number_of_trades := trades.length
  let winning_trades := (trades.filter (fun t => PyFloat.lt (val 0) t.netProfit)).length
  let winning_percentage : PyFloat :=
    if number_of_trades > 0
    then val (qmul (qdiv (winning_trades : ℚ) (number_of_trades : ℚ)) 100) else val 0
  let average_win :=
    pyOr (meanSkipNa ((trades.filter (fun t => PyFloat.lt (val 0) t.netProfit)).map (·.netProfit))) (val 0)
  let average_loss :=
    pyOr (meanSkipNa ((trades.filter (fun t => PyFloat.lt t.netProfit (val 0))).map (·.netProfit))) (val 0)
  let risk_reward_ratio :=
    if pyNe average_win (val 0) then PyFloat.div (pyAbs average_loss) average_win else inf
  let profits := trades.map (·.netProfit)
  let max_consec_losses := max_consecutive_losses profits
  let max_consec_wins := max_consecutive_wins profits
  let total_net_profit := total_profit
  let total_net_profit_pct :=
    if initial_balance ≠ 0
    then PyFloat.mul (PyFloat.div total_net_profit (val initial_balance)) (val 100) else val 0
  let daily_rows := cumsumPlus initial_balance (dailyProfit dc trades)
  let equity_base := resampleDaily daily_rows
  let daily_returns :=
    (pctChange (equity_base.map (fun r => r.2.2))).map (fun x => if x.isNan then val 0 else x)
  let equity_curve :=
    List.zipWith (fun (r : ℤ × PyFloat × PyFloat) dr => EquityRow.mk r.1 r.2.1 r.2.2 dr)
      equity_base daily_returns
  let worst_5_percent :=
    nsmallest (equity_curve.length * 5 / 100) (equity_curve.map (·.dailyReturn))
  let expected_shortfall := meanSkipNa worst_5_percent
  let trades_std_dev := stdSkipNa sqrtF (trades.map (·.netProfit))
  let expectancy := meanSkipNa (trades.map (·.netProfit))
  let sqn :=
    if pyNe trades_std_dev (val 0)
    then PyFloat.mul (PyFloat.div expectancy trades_std_dev) (sqrtF (val number_of_trades))
    else val 0
  let mean_daily_return := meanSkipNa (equity_curve.map (·.dailyReturn))
  let std_daily_return := stdSkipNa sqrtF (equity_curve.map (·.dailyReturn))
  let sharpe_ratio :=
    if pyNe std_daily_return (val 0)
    then PyFloat.mul
      (PyFloat.div (PyFloat.sub mean_daily_return (val (qdiv risk_free_rate 252))) std_daily_return)
      (sqrtF (val 252))
    else val 0
  let negative_returns :=
    (equity_curve.map (·.dailyReturn)).filter (fun r => PyFloat.lt r (val (qdiv risk_free_rate 252)))
  let downside_deviation :=
    if negative_returns.length > 0 then stdSkipNa sqrtF negative_returns else val 0
  let sortino_ratio :=
    if pyNe downside_deviation (val 0)
    then PyFloat.mul
      (PyFloat.div (PyFloat.sub mean_daily_return (val (qdiv risk_free_rate 252))) downside_deviation)
      (sqrtF (val 252))
    else val 0
  let days : PyFloat :=
    match dateMin (trades.map dc), dateMax (trades.map dc) with
    | some a, some b => val ((b - a : ℤ) : ℚ)
    | _, _ => nan
  let years := if PyFloat.lt (val 0) days then PyFloat.div days (val (mkRat 1461 4)) else val 1
  let ending_balance := PyFloat.add (val initial_balance) total_profit
  let cagr :=
    if PyFloat.lt (val 0) ending_balance ∧ 0 < initial_balance ∧ PyFloat.lt (val 0) years
    then PyFloat.sub
      (powF (PyFloat.div ending_balance (val initial_balance)) (PyFloat.div (val 1) years)) (val 1)
    else val 0
  let annual_volatility := PyFloat.mul std_daily_return (sqrtF (val 252))
  let annual_return_dollar :=
    if PyFloat.lt (val 0) years then PyFloat.div total_profit years else val 0
  let annual_return_pct := PyFloat.mul cagr (val 100)
  let cumulative_profit := equity_curve.map (·.cumulative)
  let rolling_max := cummaxSkipNa cumulative_profit
  let drawdown := List.zipWith PyFloat.sub rolling_max cumulative_profit
  let max_drawdown := seriesMax drawdown
  let percentage_drawdown :=
    if initial_balance ≠ 0
    then PyFloat.mul (PyFloat.div max_drawdown (val initial_balance)) (val 100) else val 0
  let dd_period := max_drawdown_period cumulative_profit
  let base : Metrics :=
    { bahDollar := none
      bahPct := none
      numTrades := number_of_trades
      winRatePct := winning_percentage
      riskRewardRatio := risk_reward_ratio
      totalNetProfit := total_net_profit
      totalNetProfitPct := total_net_profit_pct
      maxDrawdown := max_drawdown
      maxDrawdownPct := percentage_drawdown
      maxDrawdownPeriodDays := dd_period
      expectedShortfall5 := expected_shortfall
      sqn := sqn
      sharpeRatio := sharpe_ratio
      sortinoRatio := sortino_ratio
      cagrPct := annual_return_pct
      annualReturnDollar := annual_return_dollar
      annualVolatility := annual_volatility
      maxConsecutiveLosses := max_consec_losses
      maxConsecutiveWins := max_consec_wins }
  if include_buy_and_hold then
    match calculate_buy_and_hold trades dc initial_balance with
    | .error e => .error e
    | .ok bah =>
      .ok ({ base with bahDollar := some bah.2.1, bahPct := some bah.2.2 }, equity_curve)
  else
    .ok (base, equity_curve)

/-! ### visualize.py -/

/-- `np.percentile(a, q)` with the default linear interpolation: sort
ascending, take the fractional rank `q/100 * (n-1)` and interpolate
between its neighbours.  numpy propagates NaN (any NaN in the data makes
the result NaN) and raises `IndexError` on an empty array (`none`). -/
def pyPercentile (l : List PyFloat) (q : ℚ) : Option PyFloat :=
  match l with
  | [] => none
  | _ =>
    if l.any (·.isNan) then some nan
    else
      let xs := sortedAsc l
      let n := xs.length
      let rank := qmul (qdiv q 100) (qsub (n : ℚ) 1)
      let f := ⌊rank⌋.toNat
      let c := ⌈rank⌉.toNat
      let xf := xs.getD f nan
      let xc := xs.getD c nan
      some (PyFloat.add xf (PyFloat.mul (PyFloat.sub (val rank) (val (f : ℚ))) (PyFloat.sub xc xf)))

/-- One row of the Monte Carlo confidence-level summary table built by
`visualize.display_monte_carlo_metrics` (formatting into display strings
is dropped; each field is the raw number the format string receives). -/
structure MCRow where
  level : ℕ
  netProfit : PyFloat
  rExpectancy : PyFloat
  annualReturn : PyFloat
  maxDrawdown : PyFloat
  returnDdRatio : PyFloat
deriving DecidableEq, Repr

/-- `visualize.display_monte_carlo_metrics` (lines 150–180).  `powF` models
the float `**` operator (a parameter of the embedding, as for
`calculate_metrics`).  Each loop iteration recomputes the per-path max
drawdown, takes the `level`-th percentile of final net profit and of the
drawdowns, and derives the ratio, R expectancy and annualized return; note
the annualization exponent is `1 / len(cumulative_profits)` — the number
of rows (simulated paths) of the matrix. -/
def display_monte_carlo_metrics (powF : PyFloat → PyFloat → PyFloat)
    (cumulative_profits : List (List PyFloat)) (initial_balance : ℚ) :
    Except PyErr (List MCRow) :=
  let confidence_levels : List ℕ := [50, 70, 80, 90, 95, 98, 100]
  confidence_levels.mapM (fun (level : ℕ) => do
    let max_dd ← calculate_max_drawdown (.d2 cumulative_profits) false
    let finals := cumulative_profits.map
      (fun row => PyFloat.sub (row.getLastD nan) (val initial_balance))
    let net_profit ← match pyPercentile finals (level : ℚ) with
      | none => Except.error PyErr.indexError
      | some v => Except.ok v
    let max_drawdown ← match pyPercentile max_dd (level : ℚ) with
      | none => Except.error PyErr.indexError
      | some v => Except.ok v
    let return_dd_ratio :=
      if pyNe max_drawdown (val 0) then PyFloat.div net_profit max_drawdown else inf
    let r_expectancy := PyFloat.div net_profit (val initial_balance)
    let annual_return := PyFloat.sub
      (powF
        (PyFloat.div (PyFloat.add net_profit (val initial_balance)) (val initial_balance))
        (PyFloat.div (val 1) (val (cumulative_profits.length : ℚ))))
      (val 1)
    pure { level := level
           netProfit := net_profit
           rExpectancy := r_expectancy
           annualReturn := annual_return
           maxDrawdown := max_drawdown
           returnDdRatio := return_dd_ratio })

/-- The caller's ledger DataFrame as `monthly_performance_table` sees it:
the date and profit columns it reads, plus the three derived columns that
may or may not be present (`none` = column absent). -/
structure LedgerFrame where
  dates : List ℤ
  profits : List PyFloat
  yearCol : Option (List ℤ)
  monthCol : Option (List String)
  monthNumCol : Option (List ℕ)
deriving DecidableEq, Repr

/-- `dt.month_name()`: full English month name. -/
def monthName : ℕ → String
  | 1 => "January"
  | 2 => "February"
  | 3 => "March"
  | 4 => "April"
  | 5 => "May"
  | 6 => "June"
  | 7 => "July"
  | 8 => "August"
  | 9 => "September"
  | 10 => "October"
  | 11 => "November"
  | 12 => "December"
  | _ => ""

/-- `visualize.monthly_performance_table` (lines 90–147).  `yearOf` and
`monthOf` model the calendar accessors `dt.year` / `dt.month` (external
date arithmetic, parameters of the embedding).  The function assigns to
the caller's frame — `trades[date_column] = to_datetime(...)` (identity on
the ℤ day model) and three new columns — so the returned first component
is the caller's frame *after* the call; the second component is the Year ×
Month pivot (twelve month columns in calendar order, then YTD), optionally
as a percentage of the initial balance.  String formatting for display is
dropped. -/
def monthly_performance_table (yearOf : ℤ → ℤ) (monthOf : ℤ → ℕ)
    (frame : LedgerFrame) (initial_balance : ℚ) (mode : String) :
    LedgerFrame × List (ℤ × List PyFloat × PyFloat) :=
  let years := frame.dates.map yearOf
  let monthNums := frame.dates.map monthOf
  let months := monthNums.map monthName
  let frame' : LedgerFrame :=
    { frame with
      yearCol := some years
      monthCol := some months
      monthNumCol := some monthNums }
  let yearKeys := dedupAdj (sortInts years)
  let pivot := yearKeys.map (fun y =>
    let monthVals := (List.range 12).map (fun j =>
      let m := j + 1
      let sel := (frame.dates.zip frame.profits).filter
        (fun p => yearOf p.1 = y ∧ monthOf p.1 = m)
      if sel.isEmpty then val 0 else sumSkipNa (sel.map (·.2)))
    let ytd := sumSkipNa monthVals
    (y, monthVals, ytd))
  let pivot :=
    if mode = "Percentage (%)" then
      pivot.map (fun r =>
        (r.1,
         r.2.1.map (fun x => PyFloat.mul (PyFloat.div x (val initial_balance)) (val 100)),
         PyFloat.mul (PyFloat.div r.2.2 (val initial_balance)) (val 100)))
    else pivot
  (frame', pivot)

/-! ### data_processing.py -/

/-- One row of the raw (pre-normalization) upload in the canonical raw
schema: `Type`, `Trade #`, `Date/Time`, `Contracts`, the price column and
the profit column already resolved by the name scan of lines 31–42 (the
scan itself — first column starting with `Price`, first containing
`Profit` — is specialized here to a schema where both are unique). -/
structure RawRow where
  typ : String
  tradeNum : ℤ
  dateTime : ℤ
  contracts : PyFloat
  price : PyFloat
  profit : PyFloat
deriving DecidableEq, Repr

/-- One output row of the normalizer's entry/exit pairing path (the
final-format column set of `format_trade_data`). -/
structure PairedTrade where
  tradeNum : ℤ
  typ : String
  contracts : PyFloat
  entryDate : ℤ
  exitDate : ℤ
  entryPrice : PyFloat
  exitPrice : PyFloat
  profit : PyFloat
  totalCommission : PyFloat
  netProfit : PyFloat
deriving DecidableEq, Repr

/-- ASCII lower-casing of one character (`String.toLower` does not reduce
in the kernel, so the embedding lower-cases at the character level). -/
def charLower (c : Char) : Char :=
  if 65 ≤ c.toNat ∧ c.toNat ≤ 90 then Char.ofNat (c.toNat + 32) else c

/-- pandas `str.contains(pat, case=False)`: case-insensitive substring
test. -/
def strContainsCI (s pat : String) : Bool :=
  decide ((pat.toList.map charLower) <:+: (s.toList.map charLower))

/-- The per-row commission derived on lines 45–46 of `format_trade_data`:
`Lots = Contracts / 100000`, `Commission = Lots * 4.0`. -/
def rowCommission (r : RawRow) : PyFloat :=
  PyFloat.mul (PyFloat.div r.contracts (val 100000)) (val 4)

/-- The entry/exit pairing path of `data_processing.format_trade_data`
(lines 44–79): split rows into Entry and Exit subsets by a case-insensitive
substring match on `Type`, inner-join them on `Trade #` (left order, then
matching right rows in order, as pandas `merge` does), overwrite the `Type`
column of every joined row with the *first Entry row's* `Type`, and derive
`Total Commission` and `Net Profit`.  The `ValueError` raised when either
subset is empty is caught by the function's outer `try/except` (line 81),
which reports the error and returns `None` — hence the `Option` result. -/
def format_trade_data_pairing (raw : List RawRow) : Option (List PairedTrade) :=
  let entries := raw.filter (fun r => strContainsCI r.typ "Entry")
  let exits := raw.filter (fun r => strContainsCI r.typ "Exit")
  match entries, exits with
  | e0 :: _, _ :: _ =>
    some (entries.map (fun e =>
      (exits.filter (fun x => x.tradeNum = e.tradeNum)).map (fun x =>
        { tradeNum := e.tradeNum
          typ := e0.typ
          contracts := e.contracts
          entryDate := e.dateTime
          exitDate := x.dateTime
          entryPrice := e.price
          exitPrice := x.price
          profit := x.profit
          totalCommission := rowCommission e
          netProfit := PyFloat.sub x.profit (rowCommission e) })) |>.flatten)
  | _, _ => none

/-! ### Concrete data and parameter instances used by the witness and
counterexample theorems -/

/-- Concrete raw upload used by the C10 witness: two long/short trade
pairs whose Entry rows carry different `Type` values. -/
def rawLedger4 : List RawRow :=
  [⟨"Entry long", 1, 0, val 100000, val 5, val 0⟩,
   ⟨"Exit long", 1, 2, val 100000, val 7, val 9⟩,
   ⟨"Entry short", 2, 3, val 200000, val 4, val 0⟩,
   ⟨"Exit short", 2, 4, val 200000, val 3, val 11⟩]

/-- A concrete model of numpy's generator for the witnesses: the state is
trivial, `choice` repeats the first pool element and `permutation` is the
identity permutation — both satisfy the documented contracts. -/
def trivialRng : NumpyRandom Unit where
  seedFn := fun _ => ()
  choice := fun _ pool n => ((), List.replicate n (pool.headD (val 0)))
  permutation := fun _ pool => ((), pool)
  choice_length := fun _ _ n => List.length_replicate n _
  choice_mem := by
    intro s pool n x hne hx
    rw [List.eq_of_mem_replicate hx]
    cases pool with
    | nil => exact absurd rfl hne
    | cons a l => exact List.mem_cons_self a l
  permutation_perm := fun _ pool => List.Perm.refl pool

/-- One-trade ledger used by several witnesses. -/
def ledger1 : List Trade := [⟨"long", 0, 1, val 100, val (-5), val (-5)⟩]

/-- The action of one vectorized column step on the state of a single row:
the streak counter is bumped or reset by the sign predicate and the
maximum is updated (`np.where` / `np.maximum` seen row-wise). -/
def genStep (p : PyFloat → Bool) (st : ℕ × ℕ) (x : PyFloat) : ℕ × ℕ :=
  let c := if p x then st.2 + 1 else 0
  (Nat.max st.1 c, c)

/-- Float `**` restricted to the two points the counterexample probes,
with the true IEEE values: `pow(4.0, 0.5) = 2.0` and `pow(4.0, 1.0) = 4.0`
(both exact in binary floating point). -/
def powCex : PyFloat → PyFloat → PyFloat := fun b e =>
  if b = val 4 ∧ e = val (mkRat 1 2) then val 2
  else if b = val 4 ∧ e = val 1 then val 4
  else nan

/-- Modelled from the spec: "an annualized return approximation raising
`(net_profit+initial_balance)/initial_balance` to the power `1/num_days`"
— where `num_days` is the number of days spanned by the simulated paths
(the number of **columns** of the cumulative-profit matrix).  This is the
claim's formula, to be compared with the code's. -/
def specAnnualReturn (powF : PyFloat → PyFloat → PyFloat)
    (net_profit : PyFloat) (initial_balance : ℚ) (num_days : ℕ) : PyFloat :=
  PyFloat.sub
    (powF (PyFloat.div (PyFloat.add net_profit (val initial_balance)) (val initial_balance))
      (PyFloat.div (val 1) (val (num_days : ℚ)))) (val 1)

/-! ### Correctness of the kernel-computable rational wrappers -/

/-- `qadd` agrees with field addition. -/
theorem qadd_eq (a b : ℚ) : qadd a b = a + b := (Rat.add_def' a b).symm

/-- `qsub` agrees with field subtraction. -/
theorem qsub_eq (a b : ℚ) : qsub a b = a - b := by
  rw [qsub, Rat.sub_def, Rat.normalize_eq_mkRat]

/-- `qmul` agrees with field multiplication. -/
theorem qmul_eq (a b : ℚ) : qmul a b = a * b := by
  rw [qmul, Rat.mul_def, Rat.normalize_eq_mkRat]

/-- `qdiv` agrees with field division. -/
theorem qdiv_eq (a b : ℚ) : qdiv a b = a / b := by
  rw [qdiv, Rat.div_def, Rat.inv_def]
  conv_rhs => rw [← Rat.num_divInt_den a]
  rw [Rat.divInt_mul_divInt']

/-- `qneg` agrees with field negation. -/
theorem qneg_eq (a : ℚ) : qneg a = -a := by
  rw [qneg, ← Rat.neg_divInt, Rat.num_divInt_den]

/-- `qabs` agrees with the absolute value. -/
theorem qabs_eq (a : ℚ) : qabs a = |a| := by
  rw [qabs]
  split
  · rw [qneg_eq, abs_of_neg (by assumption)]
  · rw [abs_of_nonneg (le_of_not_lt (by assumption))]

/-! ### Claims C1, C3, C5 — error behaviour and degenerate ledgers of
`calculate_metrics` -/

/-- C1 (counterexample): an internal exception reaches the caller of
`calculate_metrics` — on an empty ledger with the default
`include_buy_and_hold=True`, the `IndexError` raised by `.iloc[0]` inside
`calculate_buy_and_hold` propagates as-is; the function does not catch it
and does not return `(None, None)`. -/
theorem metrics_exception_reaches_caller_cex :
    calculate_metrics (fun _ => val 0) (fun _ _ => val 0) []
      (·.entryDate) 10000 (1 / 50) true = .error .indexError := rfl

/-- C1 (amended): `calculate_metrics` has no try/except — internal
failures propagate to the caller instead of being converted to
`(None, None)`.  For every choice of numeric primitives, date column,
balances and rates, the empty ledger with the benchmark enabled makes the
function return the propagated `IndexError`. -/
theorem metrics_exceptions_propagate (sqrtF : PyFloat → PyFloat)
    (powF : PyFloat → PyFloat → PyFloat) (dc : Trade → ℤ)
    (initial_balance risk_free_rate : ℚ) :
    calculate_metrics sqrtF powF [] dc initial_balance risk_free_rate true =
      .error .indexError := rfl

/-- C5 (counterexample): on an empty ledger with the default parameters
(benchmark enabled) the metrics computation raises (`IndexError` from
`calculate_buy_and_hold`) rather than returning a win rate. -/
theorem empty_ledger_raises_cex :
    calculate_metrics (fun _ => nan) (fun _ _ => nan) []
      (·.exitDate) 5000 (1 / 50) true = .error .indexError := rfl

/-- C5 (amended): on an empty ledger the win-rate expression itself is `0`
(the guarded ternary), not NaN; with `include_buy_and_hold=False` the
function returns it without raising — but with the default benchmark an
empty ledger raises instead (see the counterexample). -/
theorem empty_ledger_win_rate_zero (sqrtF : PyFloat → PyFloat)
    (powF : PyFloat → PyFloat → PyFloat) (dc : Trade → ℤ)
    (initial_balance risk_free_rate : ℚ) :
    ∃ m eq, calculate_metrics sqrtF powF [] dc initial_balance risk_free_rate false =
      .ok (m, eq) ∧ m.winRatePct = val 0 := ⟨_, _, rfl, rfl⟩

/-- C3: evaluating `calculate_metrics` on a one-trade ledger with no
winning trade.  `average_win` is `mean(∅) or 0 = NaN or 0 = NaN` (NaN is
truthy, so the `or 0` guard never fires), `NaN != 0` is true, and the
risk-reward ratio becomes `|average_loss| / NaN = NaN` — not the
`+infinity` promised by the spec (the `else np.inf` branch is unreachable:
a mean of strictly positive values can never equal 0). -/
theorem risk_reward_nan_on_no_winners_cex :
    ∃ m eq, calculate_metrics (fun _ => val 0) (fun _ _ => val 0)
        [⟨"long", 0, 1, val 100, val (-5), val (-5)⟩]
        (·.entryDate) 10000 (1 / 50) false = .ok (m, eq) ∧
      m.riskRewardRatio = nan ∧ m.riskRewardRatio ≠ inf := by
  refine ⟨_, _, rfl, ?_, ?_⟩
  · decide
  · decide

/-! ### Claim C7 — seeded reproducibility of the Monte Carlo batch -/

/-- C7: with a non-`None` seed, `np.random.seed` replaces the global
random state before the batch, so the output of `monte_carlo_simulation`
does not depend on the incoming state: two calls with the same seed and
identical inputs return identical matrices. -/
theorem seeded_batches_identical {S : Type} (rng : NumpyRandom S)
    (s1 s2 : S) (trades : List Trade) (num_simulations : ℕ)
    (num_trades : Option ℕ) (method : String) (k : ℕ) :
    monte_carlo_simulation rng s1 trades num_simulations num_trades method (some k) =
    monte_carlo_simulation rng s2 trades num_simulations num_trades method (some k) := rfl

/-! ### Claim C6 — frame effects on the caller's ledger -/

/-- C6 (counterexample): `monthly_performance_table` mutates the caller's
frame — after the call the ledger has gained `Year`, `Month` and
`Month_Num` columns. -/
theorem monthly_table_mutates_ledger_cex :
    (monthly_performance_table (fun _ => 2020) (fun _ => 3)
        ⟨[5], [val 10], none, none, none⟩ 10000 "Dollar ($)").1 ≠
      ⟨[5], [val 10], none, none, none⟩ := by decide

/-- C6 (amended): what `monthly_performance_table` does to the caller's
frame, exactly: the date and profit columns are left unchanged, but the
three derived columns `Year`, `Month` and `Month_Num` are written onto the
input frame in place (the equity-curve and simulation computations work on
copies; the normalizer likewise writes derived columns onto its raw
input). -/
theorem monthly_table_mutation_effect (yearOf : ℤ → ℤ) (monthOf : ℤ → ℕ)
    (frame : LedgerFrame) (initial_balance : ℚ) (mode : String) :
    (monthly_performance_table yearOf monthOf frame initial_balance mode).1 =
      { frame with
        yearCol := some (frame.dates.map yearOf)
        monthCol := some ((frame.dates.map monthOf).map monthName)
        monthNumCol := some (frame.dates.map monthOf) } := rfl

/-! ### Claim C10 — constant `Type` column on the pairing path -/

/-- C10: on the normalizer's entry/exit pairing path, every output row's
`Type` equals the `Type` of the *first* Entry row of the input
(`paired_trades['Type'] = entries.iloc[0]['Type']`), regardless of each
trade's own side. -/
theorem pairing_type_from_first_entry (raw : List RawRow)
    (rows : List PairedTrade) (h : format_trade_data_pairing raw = some rows) :
    ∀ r ∈ rows,
      ((raw.filter (fun t => strContainsCI t.typ "Entry")).head?.map (·.typ)) =
        some r.typ := by
  intro r hr
  simp only [format_trade_data_pairing] at h
  split at h
  case h_1 e0 es x0 xs hent hexi =>
    rw [Option.some.injEq] at h
    subst h
    rw [List.mem_flatten] at hr
    obtain ⟨l, hl, hrl⟩ := hr
    rw [List.mem_map] at hl
    obtain ⟨e, _, rfl⟩ := hl
    rw [List.mem_map] at hrl
    obtain ⟨x, _, rfl⟩ := hrl
    rw [hent]
    rfl
  case h_2 => exact absurd h (by simp)

/-- C10 (witness): the pairing path on `rawLedger4` succeeds and every
output row carries the first Entry row's `Type`. -/
theorem pairing_type_from_first_entry_witness :
    ∃ rows, format_trade_data_pairing rawLedger4 = some rows ∧
      ∀ r ∈ rows,
        ((rawLedger4.filter (fun t => strContainsCI t.typ "Entry")).head?.map (·.typ)) =
          some r.typ :=
  ⟨_, rfl, fun r hr => pairing_type_from_first_entry rawLedger4 _ rfl r hr⟩

/-! ### Claim C2 — Monte Carlo without replacement -/

/-- Each row produced by the shuffling loop with `nt` equal to the pool
size is a permutation of the pool (`np.random.permutation` contract plus
`take` of the full length). -/
theorem shuffleRows_perm {S : Type} (rng : NumpyRandom S) (profits : List PyFloat) :
    ∀ (n : ℕ) (s : S) (row : List PyFloat),
      row ∈ shuffleRows rng s profits n profits.length → row.Perm profits := by
  intro n
  induction n with
  | zero => intro s row h; simp [shuffleRows] at h
  | succ k ih =>
    intro s row h
    simp only [shuffleRows] at h
    rcases List.mem_cons.mp h with hh | hh
    · subst hh
      have hp := rng.permutation_perm s profits
      have hl : (rng.permutation s profits).2.length = profits.length := hp.length_eq
      rw [← hl, List.take_length]
      exact hp
    · exact ih _ _ hh

/-- C2: under the without-replacement method (`"randomized_shuffling"`),
requesting more trades than the pool holds fails with the spec's
`InvalidParameterError` (the `ValueError` of lines 26–29), and requesting
exactly the pool size yields a matrix every row of which is a permutation
of the full historical profit pool. -/
theorem mc_without_replacement_spec {S : Type} (rng : NumpyRandom S) (gs : S)
    (trades : List Trade) (num_simulations : ℕ) (nt : ℕ) (seed : Option ℕ) :
    (nt > trades.length →
      monte_carlo_simulation rng gs trades num_simulations (some nt)
        "randomized_shuffling" seed = .error .invalidParameterError) ∧
    (∃ m, monte_carlo_simulation rng gs trades num_simulations (some trades.length)
        "randomized_shuffling" seed = .ok m ∧
      ∀ row ∈ m, row.Perm (trades.map (·.profit))) := by
  constructor
  · intro hgt
    unfold monte_carlo_simulation
    rw [if_neg (by decide), if_pos ⟨rfl, by simpa using hgt⟩]
  · simp only [monte_carlo_simulation, Option.getD_some, List.length_map, true_and,
      gt_iff_lt, lt_self_iff_false, if_false]
    refine ⟨_, rfl, ?_⟩
    intro row hrow
    have hlen : trades.length = (trades.map (·.profit)).length :=
      (List.length_map _ _).symm
    rw [hlen] at hrow
    exact shuffleRows_perm rng _ _ _ row hrow

/-- C2 (witness): on a one-trade ledger, requesting 2 trades without
replacement errors, and requesting exactly 1 yields rows that are
permutations of the pool. -/
theorem mc_without_replacement_spec_witness :
    (2 > ledger1.length ∧
      monte_carlo_simulation trivialRng () ledger1 3 (some 2)
        "randomized_shuffling" none = .error .invalidParameterError) ∧
    (∃ m, monte_carlo_simulation trivialRng () ledger1 3 (some ledger1.length)
        "randomized_shuffling" none = .ok m ∧
      ∀ row ∈ m, row.Perm (ledger1.map (·.profit))) :=
  ⟨⟨by decide,
    (mc_without_replacement_spec trivialRng () ledger1 3 2 none).1 (by decide)⟩,
   (mc_without_replacement_spec trivialRng () ledger1 3 1 none).2⟩

/-! ### Claim C9 — 1-D interface of `calculate_max_drawdown` -/

/-- A successful `Option`-valued `mapM` preserves length. -/
theorem mapM_option_length {α β : Type} (f : α → Option β) :
    ∀ (l : List α) (v : List β), l.mapM f = some v → v.length = l.length := by
  intro l
  induction l with
  | nil => intro v hv; simp only [List.mapM_nil, Option.pure_def, Option.some.injEq] at hv
           simp [← hv]
  | cons x xs ih =>
    intro v hv
    simp only [List.mapM_cons, Option.pure_def, Option.bind_eq_bind] at hv
    cases hx : f x with
    | none => rw [hx] at hv; simp at hv
    | some b =>
      rw [hx] at hv
      simp only [Option.some_bind] at hv
      cases hxs : xs.mapM f with
      | none => rw [hxs] at hv; simp at hv
      | some bs =>
        rw [hxs] at hv
        simp only [Option.some_bind, Option.some.injEq] at hv
        subst hv
        simp [ih bs hxs]

/-- C9: `calculate_max_drawdown` accepts a 1-D array, treating it as the
single row of a 2-D matrix (the two calls are definitionally the same
computation); a successful 1-D call returns a one-element vector; and the
dimensionality `ValueError` occurs exactly for arrays whose `ndim` is
neither 1 nor 2. -/
theorem drawdown_dim_interface (a : NDArray) (pct : Bool) (hwf : a.wf) :
    (∀ l, calculate_max_drawdown (.d1 l) pct = calculate_max_drawdown (.d2 [l]) pct) ∧
    (∀ l v, calculate_max_drawdown (.d1 l) pct = .ok v → v.length = 1) ∧
    (calculate_max_drawdown a pct = .error .invalidShapeError ↔
      a.ndim ≠ 1 ∧ a.ndim ≠ 2) := by
  refine ⟨fun l => rfl, ?_, ?_⟩
  · intro l v hv
    simp only [calculate_max_drawdown] at hv
    split at hv
    · cases hv
    · rename_i vs hvs
      rw [Except.ok.injEq] at hv
      subst hv
      rw [mapM_option_length _ _ _ hvs]
      split
      · simp
      · simp
  · cases a with
    | d1 row =>
      simp only [NDArray.ndim, calculate_max_drawdown]
      constructor
      · intro hc
        split at hc <;> simp_all
      · intro hc
        exact absurd rfl hc.1
    | d2 rows =>
      simp only [NDArray.ndim, calculate_max_drawdown]
      constructor
      · intro hc
        split at hc <;> simp_all
      · intro hc
        exact absurd rfl hc.2
    | other n =>
      simp only [NDArray.ndim, calculate_max_drawdown]
      exact ⟨fun _ => hwf, fun _ => trivial⟩

/-- C9 (witness): instantiated at a wrongly-shaped (3-D) array. -/
theorem drawdown_dim_interface_witness :
    NDArray.wf (.other 3) ∧
    ((∀ l, calculate_max_drawdown (.d1 l) false = calculate_max_drawdown (.d2 [l]) false) ∧
     (∀ l v, calculate_max_drawdown (.d1 l) false = .ok v → v.length = 1) ∧
     (calculate_max_drawdown (.other 3) false = .error .invalidShapeError ↔
       NDArray.ndim (.other 3) ≠ 1 ∧ NDArray.ndim (.other 3) ≠ 2)) := by
  have hwf : NDArray.wf (.other 3) := ⟨by decide, by decide⟩
  exact ⟨hwf, drawdown_dim_interface (.other 3) false hwf⟩

/-! ### Claim C8 — vectorized streaks agree with the scalar reference -/

/-- The row-level column step coincides with the scalar loop body of
`max_consecutive_losses` (whose max-update is guarded by `>` instead of
using `max`). -/
theorem genStep_eq_lossStep (st : ℕ × ℕ) (x : PyFloat) :
    genStep (fun y => PyFloat.lt y (val 0)) st x = lossStep st x := by
  simp only [genStep, lossStep]
  split
  · refine Prod.ext ?_ rfl
    show Nat.max st.1 (st.2 + 1) = if st.2 + 1 > st.1 then st.2 + 1 else st.1
    simp only [Nat.max_def]
    split <;> split <;> omega
  · refine Prod.ext ?_ rfl
    show Nat.max st.1 0 = st.1
    simp [Nat.max_def]

/-- The row-level column step coincides with the scalar loop body of
`max_consecutive_wins`. -/
theorem genStep_eq_winStep (st : ℕ × ℕ) (x : PyFloat) :
    genStep (fun y => PyFloat.lt (val 0) y) st x = winStep st x := by
  simp only [genStep, winStep]
  split
  · refine Prod.ext ?_ rfl
    show Nat.max st.1 (st.2 + 1) = if st.2 + 1 > st.1 then st.2 + 1 else st.1
    simp only [Nat.max_def]
    split <;> split <;> omega
  · refine Prod.ext ?_ rfl
    show Nat.max st.1 0 = st.1
    simp [Nat.max_def]

/-- `zipWith` of two maps over the same list is a single map. -/
theorem zipWith_map_both {α β γ δ : Type} (f : β → γ → δ) (g : α → β)
    (h : α → γ) (l : List α) :
    List.zipWith f (l.map g) (l.map h) = l.map (fun x => f (g x) (h x)) := by
  induction l with
  | nil => rfl
  | cons x xs ih => simp [ih]

/-- Taking one more element appends the element at the boundary index. -/
theorem take_succ_getD {α : Type} (l : List α) (j : ℕ) (d : α)
    (h : j < l.length) : l.take (j + 1) = l.take j ++ [l.getD j d] := by
  induction l generalizing j with
  | nil => simp at h
  | cons x xs ih =>
    cases j with
    | zero => simp
    | succ k =>
      simp only [List.take_succ_cons, List.getD_cons_succ, List.cons_append]
      rw [ih k (by simpa using h)]

/-- `getD` through a `map`, inside bounds. -/
theorem getD_map {α β : Type} (f : α → β) (l : List α) (i : ℕ)
    (h : i < l.length) (d : α) (d2 : β) :
    (l.map f).getD i d2 = f (l.getD i d) := by
  rw [List.getD_eq_getElem _ _ (by simpa using h), List.getD_eq_getElem _ _ h,
    List.getElem_map]

/-- The heart of C8: over a rectangular matrix, the column-by-column
vectorized fold computes, at every row, exactly the row-wise fold of the
per-row step — `vStreaks` is the row-wise streak maximum. -/
theorem vStreaks_eq_map (p : PyFloat → Bool) (m : List (List PyFloat))
    (hrect : ∀ row ∈ m, row.length = (m.headD []).length) :
    vStreaks p m = m.map (fun r => (r.foldl (genStep p) (0, 0)).1) := by
  have key : ∀ k, k ≤ (m.headD []).length →
      (List.range k).foldl (vStreakCol p m)
        (List.replicate m.length 0, List.replicate m.length 0) =
      (m.map (fun r => ((r.take k).foldl (genStep p) (0, 0)).1),
       m.map (fun r => ((r.take k).foldl (genStep p) (0, 0)).2)) := by
    intro k
    induction k with
    | zero =>
      intro _
      refine Prod.ext ?_ ?_ <;>
        · show List.replicate m.length 0 = m.map (fun _ => 0)
          rw [List.map_const']
    | succ k ih =>
      intro hk1
      rw [List.range_succ, List.foldl_append, List.foldl_cons, List.foldl_nil,
        ih (Nat.le_of_succ_le hk1)]
      simp only [vStreakCol]
      rw [zipWith_map_both, zipWith_map_both]
      refine Prod.ext ?_ ?_ <;>
      · refine List.map_congr_left ?_
        intro r hr
        have hk : k < r.length := by
          have := hrect r hr
          omega
        rw [take_succ_getD r k nan hk, List.foldl_append, List.foldl_cons,
          List.foldl_nil]
        rfl
  simp only [vStreaks]
  rw [key _ (Nat.le_refl _)]
  refine List.map_congr_left ?_
  intro r hr
  rw [← hrect r hr, List.take_length]

/-- Pointwise-equal fold steps give equal folds. -/
theorem foldl_step_congr {α β : Type} (f g : β → α → β)
    (hfg : ∀ st x, f st x = g st x) :
    ∀ (l : List α) (st : β), l.foldl f st = l.foldl g st := by
  intro l
  induction l with
  | nil => intro st; rfl
  | cons x xs ih => intro st; rw [List.foldl_cons, List.foldl_cons, hfg, ih]

/-- C8: for every rectangular 2-D profit matrix and every row index, the
vectorized per-path streak functions agree with the scalar reference —
row `i` of `calculate_max_consecutive_losing_trades` (resp. winning)
equals `max_consecutive_losses` (resp. `max_consecutive_wins`) applied to
row `i`. -/
theorem streaks_vectorized_match_scalar (m : List (List PyFloat))
    (hrect : ∀ row ∈ m, row.length = (m.headD []).length)
    (i : ℕ) (hi : i < m.length) :
    ∃ L W, calculate_max_consecutive_losing_trades (.d2 m) = .ok L ∧
      calculate_max_consecutive_winning_trades (.d2 m) = .ok W ∧
      L.getD i 0 = max_consecutive_losses (m.getD i []) ∧
      W.getD i 0 = max_consecutive_wins (m.getD i []) := by
  refine ⟨_, _, rfl, rfl, ?_, ?_⟩
  · rw [vStreaks_eq_map _ _ hrect, getD_map _ _ _ hi []]
    show ((m.getD i []).foldl (genStep _) (0, 0)).1 = _
    rw [foldl_step_congr _ _ genStep_eq_lossStep]
    rfl
  · rw [vStreaks_eq_map _ _ hrect, getD_map _ _ _ hi []]
    show ((m.getD i []).foldl (genStep _) (0, 0)).1 = _
    rw [foldl_step_congr _ _ genStep_eq_winStep]
    rfl

/-- C8 (witness): a concrete 2×5 matrix — both vectorized outputs match
the scalar functions on both rows. -/
theorem streaks_vectorized_match_scalar_witness :
    (∀ row ∈ [[val 1, val (-1), val (-2), val 0, val (-3)],
              [val (-1), val (-1), val (-1), val 2, val 1]],
      row.length = (([[val 1, val (-1), val (-2), val 0, val (-3)],
              [val (-1), val (-1), val (-1), val 2, val 1]].headD []).length)) ∧
    (1 < [[val 1, val (-1), val (-2), val 0, val (-3)],
          [val (-1), val (-1), val (-1), val 2, val 1]].length) ∧
    (∃ L W, calculate_max_consecutive_losing_trades
        (.d2 [[val 1, val (-1), val (-2), val 0, val (-3)],
              [val (-1), val (-1), val (-1), val 2, val 1]]) = .ok L ∧
      calculate_max_consecutive_winning_trades
        (.d2 [[val 1, val (-1), val (-2), val 0, val (-3)],
              [val (-1), val (-1), val (-1), val 2, val 1]]) = .ok W ∧
      L.getD 1 0 = max_consecutive_losses
        ([[val 1, val (-1), val (-2), val 0, val (-3)],
          [val (-1), val (-1), val (-1), val 2, val 1]].getD 1 []) ∧
      W.getD 1 0 = max_consecutive_wins
        ([[val 1, val (-1), val (-2), val 0, val (-3)],
          [val (-1), val (-1), val (-1), val 2, val 1]].getD 1 [])) :=
  ⟨by decide, by decide,
   streaks_vectorized_match_scalar _ (by decide) 1 (by decide)⟩

/-! ### Claim C4 — the annualization exponent of the Monte Carlo table -/

/-- A successful `Except`-valued `mapM`: every output element comes from a
successful application of `f` to some input element. -/
theorem mapM_except_mem {ε α β : Type} (f : α → Except ε β) :
    ∀ (l : List α) (v : List β), l.mapM f = .ok v →
      ∀ b ∈ v, ∃ a ∈ l, f a = .ok b := by
  intro l
  induction l with
  | nil =>
    intro v hv b hb
    simp only [List.mapM_nil, pure, Except.pure, Except.ok.injEq] at hv
    subst hv
    simp at hb
  | cons x xs ih =>
    intro v hv b hb
    simp only [List.mapM_cons, pure, Except.pure, bind, Except.bind] at hv
    cases hx : f x with
    | error e => rw [hx] at hv; cases hv
    | ok b0 =>
      rw [hx] at hv
      cases hxs : xs.mapM f with
      | error e => rw [hxs] at hv; cases hv
      | ok bs =>
        rw [hxs] at hv
        rw [Except.ok.injEq] at hv
        subst hv
        rcases List.mem_cons.mp hb with rfl | hbs
        · exact ⟨x, List.mem_cons_self x xs, hx⟩
        · obtain ⟨a, ha, hfa⟩ := ih bs hxs b hbs
          exact ⟨a, List.mem_cons_of_mem x ha, hfa⟩

/-- C4 (amended): in every row of the confidence-level table, the
annualized return equals `((net_profit + initial_balance)/initial_balance)
** (1 / len(cumulative_profits)) - 1`, where `len(cumulative_profits)` is
the **number of rows** of the cumulative-profit matrix (the number of
simulated paths) — not the number of days the paths span. -/
theorem display_row_annualization (powF : PyFloat → PyFloat → PyFloat)
    (cum : List (List PyFloat)) (ib : ℚ) (rows : List MCRow)
    (hok : display_monte_carlo_metrics powF cum ib = .ok rows) :
    ∀ r ∈ rows, r.annualReturn =
      PyFloat.sub
        (powF (PyFloat.div (PyFloat.add r.netProfit (val ib)) (val ib))
          (PyFloat.div (val 1) (val (cum.length : ℚ)))) (val 1) := by
  intro r hr
  simp only [display_monte_carlo_metrics] at hok
  obtain ⟨level, _, hstep⟩ := mapM_except_mem _ _ _ hok r hr
  simp only [bind, Except.bind, pure, Except.pure] at hstep
  split at hstep
  · exact Except.noConfusion hstep
  · split at hstep
    · exact Except.noConfusion hstep
    · split at hstep
      · exact Except.noConfusion hstep
      · rw [Except.ok.injEq] at hstep
        subst hstep
        rfl

/-- C4 (counterexample): a 2-simulation, 1-day batch with final balances
40 over an initial balance of 10.  All percentiles of final net profit are
30, so the spec's formula (exponent `1/num_days = 1/1`) gives `4^1 - 1 =
3`, but the code (exponent `1/len(cumulative_profits) = 1/2`, the row
count) reports `4^(1/2) - 1 = 1`. -/
theorem annualization_exponent_cex :
    ((display_monte_carlo_metrics powCex [[val 40], [val 40]] 10).toOption.map
        (fun rows => ((rows.map (·.annualReturn)).get? 0, (rows.map (·.netProfit)).get? 0))) =
      some (some (val 1), some (val 30)) ∧
    specAnnualReturn powCex (val 30) 10 1 = val 3 ∧
    (val 1 : PyFloat) ≠ val 3 := by
  refine ⟨?_, ?_, ?_⟩
  · decide
  · decide
  · decide

/-- C4 (witness): the amended theorem applied to the concrete batch of the
counterexample — the reported annualized return uses the row count (2) in
the exponent. -/
theorem display_row_annualization_witness :
    display_monte_carlo_metrics powCex [[val 40], [val 40]] 10 =
      .ok ((display_monte_carlo_metrics powCex [[val 40], [val 40]] 10).toOption.getD []) ∧
    ∀ r ∈ (display_monte_carlo_metrics powCex [[val 40], [val 40]] 10).toOption.getD [],
      r.annualReturn =
        PyFloat.sub
          (powCex (PyFloat.div (PyFloat.add r.netProfit (val 10)) (val 10))
            (PyFloat.div (val 1)
              (val (([[val 40], [val 40]] : List (List PyFloat)).length : ℚ))))
          (val 1) :=
  ⟨rfl, display_row_annualization powCex [[val 40], [val 40]] 10 _ rfl⟩

end Qmetrics
